import Mathlib

/-!
# haproxy-statsd: the collection-and-transform pipeline of `StatsEmitter`

A shallow embedding of `src/haproxy-statsd.go`.

* Go strings are Lean strings, handled through their character lists.  The
  bytes the code looks at (`':'`, the decimal digits, the signs) are ASCII, so a
  character stands for its bytes.
* A Go `map[string]string` is an association list; the order in which `range`
  visits its keys is not fixed by Go and is a parameter, `order`, which the
  statements take to be a permutation of the keys of the map.
* A panic is a value in the result, next to the gauges handed to the statsd
  client so far, in the order of the `Gauge` calls.
* `strconv.Atoi`, `strings.Replace` and the `csv.Reader` belong to Go's
  library; they are modelled from their documented behaviour, `Atoi` for a
  64-bit `int`.  The HTTP client and `statsd.New` are answers of the
  surroundings, gathered in `World`.
-/

namespace HaproxyStatsd

/-! ## `strconv.Atoi` -/

/-- The two errors of package `strconv`. -/
inductive NumError where
  | ErrSyntax
  | ErrRange
  deriving DecidableEq, Repr

/-- The width of Go's `int` (`strconv.IntSize`) on a 64-bit platform. -/
def intSize : Nat := 64

/-- The byte test `'0' <= c && c <= '9'`. -/
def isDigit (c : Char) : Bool := decide (48 ≤ c.toNat) && decide (c.toNat ≤ 57)

/-- The digit value `c - '0'`. -/
def digitVal (c : Char) : Nat := c.toNat - 48

/-- The digit loop of `strconv.ParseUint(s, 10, 64)`: a byte that is not a
decimal digit is a syntax error, and a value that leaves `uint64` is a range
error, each reported at the first byte where it shows. -/
def parseUintLoop : List Char → Nat → Except NumError Nat
  | [], n => .ok n
  | c :: cs, n =>
    if isDigit c then
      if n ≥ (2 ^ 64 - 1) / 10 + 1 then .error .ErrRange
      else
        let n1 := n * 10 + digitVal c
        if n1 > 2 ^ 64 - 1 then .error .ErrRange
        else parseUintLoop cs n1
    else .error .ErrSyntax

/-- The function `strconv.ParseUint(s, 10, 64)`: the empty string is a syntax
error. -/
def ParseUint (s : List Char) : Except NumError Nat :=
  if s.isEmpty then .error .ErrSyntax else parseUintLoop s 0

/-- The function `strconv.ParseInt(s, 10, 0)`: the leading sign is picked off,
the rest is converted unsigned and checked against the range of `int`.  A range
error of `ParseUint` stays a range error. -/
def ParseInt (s : List Char) : Except NumError Int :=
  match s with
  | [] => .error .ErrSyntax
  | c :: cs =>
    let neg := c == '-'
    let s := if c == '+' || c == '-' then cs else c :: cs
    match ParseUint s with
    | .error e => .error e
    | .ok un =>
      let cutoff := 2 ^ (intSize - 1)
      if !neg && un ≥ cutoff then .error .ErrRange
      else if neg && un > cutoff then .error .ErrRange
      else .ok (if neg then -(un : Int) else (un : Int))

/-- The function `strconv.Atoi`.  Its fast path for short inputs and its slow
path through `ParseInt` accept the same strings with the same values, so the
model is the slow path. -/
def Atoi (s : String) : Except NumError Int := ParseInt s.data

/-! ## `strings.Replace` -/

/-- The call `strings.Replace(s, ":", ".", -1)`: every `':'` becomes `'.'`. -/
def replaceColon (s : String) : String :=
  ⟨s.data.map (fun c => if c == ':' then '.' else c)⟩

/-! ## Go maps -/

/-- A `map[string]string`, as an association list with distinct keys. -/
abbrev GoMap := List (String × String)

/-- The assignment `m[k] = v`. -/
def GoMap.set (m : GoMap) (k v : String) : GoMap :=
  (k, v) :: m.filter (fun e => e.1 != k)

/-- The expression `m[k]`; a missing key gives the zero value `""`. -/
def GoMap.get (m : GoMap) (k : String) : String :=
  (m.lookup k).getD ""

/-! ## Panics and results -/

/-- What a cycle can panic with. -/
inductive PanicValue where
  /-- The call `req.SetBasicAuth` on the nil request left by a failed `http.NewRequest`. -/
  | nilRequest
  /-- The error of `cHttp.Do`. -/
  | transport (msg : String)
  /-- The error of `statsd.New`. -/
  | statsd (msg : String)
  /-- An error of `reader.Read` other than `io.EOF`. -/
  | csv (msg : String)
  /-- The run-time error of `record[index]` with `index ≥ len(record)`. -/
  | indexOutOfRange (index length : Nat)
  /-- The error of `strconv.Atoi`. -/
  | atoi (input : String) (err : NumError)
  deriving DecidableEq, Repr

/-- A gauge handed to the statsd client: the arguments of `cStatsd.Gauge`. -/
abbrev MetricPoint := String × Int

/-- The gauges sent so far, in the order of the calls, and the panic that
stopped the run, if one did. -/
structure Outcome where
  gauges : List MetricPoint
  panic : Option PanicValue
  deriving DecidableEq, Repr

/-- The run stopped with a panic. -/
def Outcome.aborted (o : Outcome) : Bool := o.panic.isSome

/-! ## The body of the read loop -/

/-- The expression `record[i]`. -/
def index (record : List String) (i : Nat) : Except PanicValue String :=
  match record[i]? with
  | some v => .ok v
  | none => .error (.indexOutOfRange i record.length)

/-- Lines 70-88: the map of the interesting CSV values, filled in the order of
the source. -/
def mapping (record : List String) : Except PanicValue GoMap := do
  let properties : GoMap := []
  let properties := properties.set "pxname" (← index record 0)
  let properties := properties.set "svname" (← index record 1)
  let properties := properties.set "scur" (← index record 4)
  let properties := properties.set "smax" (← index record 5)
  let properties := properties.set "bin" (← index record 8)
  let properties := properties.set "bout" (← index record 9)
  let properties := properties.set "ereq" (← index record 12)
  let properties := properties.set "econ" (← index record 13)
  let properties := properties.set "rate" (← index record 33)
  let properties := properties.set "hrsp_1xx" (← index record 39)
  let properties := properties.set "hrsp_2xx" (← index record 40)
  let properties := properties.set "hrsp_3xx" (← index record 41)
  let properties := properties.set "hrsp_4xx" (← index record 42)
  let properties := properties.set "hrsp_5xx" (← index record 43)
  let properties := properties.set "qtime" (← index record 58)
  let properties := properties.set "ctime" (← index record 59)
  let properties := properties.set "rtime" (← index record 60)
  let properties := properties.set "ttime" (← index record 61)
  return properties

/-- Lines 95-120: the `range` loop over `properties`, visiting the keys in the
order `order`; `sent` holds the gauges already sent. -/
def rangeLoop (properties : GoMap) : List String → List MetricPoint → Outcome
  | [], sent => ⟨sent, none⟩
  | key :: rest, sent =>
    let valueStr := properties.get key
    if key != "pxname" && key != "svname" then
      let valueStr := if valueStr.length == 0 then "0" else valueStr
      match Atoi valueStr with
      | .error e => ⟨sent, some (.atoi valueStr e)⟩
      | .ok value =>
        let name := properties.get "pxname" ++ "." ++ properties.get "svname" ++ "." ++ key
        rangeLoop properties rest (sent ++ [(name, value)])
    else rangeLoop properties rest sent

/-- Lines 70-120: what `StatsEmitter` does with one record.  The order in which
Go visits the keys of `properties` is the parameter `order`. -/
def processRecord (order : List String) (record : List String) (sent : List MetricPoint) :
    Outcome :=
  match mapping record with
  | .error p => ⟨sent, some p⟩
  | .ok properties =>
    let properties := properties.set "pxname" (replaceColon (properties.get "pxname"))
    rangeLoop properties order sent

/-- The keys of `properties`, in the order of the assignments. -/
def fieldKeys : List String :=
  ["pxname", "svname", "scur", "smax", "bin", "bout", "ereq", "econ", "rate",
   "hrsp_1xx", "hrsp_2xx", "hrsp_3xx", "hrsp_4xx", "hrsp_5xx",
   "qtime", "ctime", "rtime", "ttime"]

/-- The scenario row of the specification: `web`, `srv1`, `ereq = 5`,
`econ = 10`, zeros in the response classes, every other position empty. -/
def scenarioRow : List String :=
  ((((((((List.replicate 62 "").set 0 "web").set 1 "srv1").set 12 "5").set 13 "10").set 39
    "0").set 40 "0").set 41 "0").set 42 "0" |>.set 43 "0"

/-! ## What a decimal string denotes -/

/-- The number written by a string of decimal digits, most significant first. -/
def decimalValue (ds : List Char) : Nat := Nat.ofDigits 10 (ds.reverse.map digitVal)

/-- The integer written by a sign and a string of digits, when the digits are
one or more and the integer fits Go's `int`. -/
def signedDecimal (neg : Bool) (ds : List Char) : Option Int :=
  if !ds.isEmpty && ds.all isDigit then
    let v : Int := if neg then -(decimalValue ds : Int) else (decimalValue ds : Int)
    if -(2 ^ 63 : Int) ≤ v ∧ v ≤ 2 ^ 63 - 1 then some v else none
  else none

/-- The integer a string denotes in base 10, when it is one that fits Go's
`int`: an optional sign, then one digit or more. -/
def denotedInt (s : String) : Option Int :=
  match s.data with
  | [] => none
  | c :: r =>
    if c = '-' then signedDecimal true r
    else if c = '+' then signedDecimal false r
    else signedDecimal false (c :: r)

/-- The gauge value the specification gives a raw field: zero for the empty
string, else the integer it denotes. -/
def fieldValue (s : String) : Int :=
  if s = "" then 0 else (denotedInt s).getD 0

/-- The accumulator of the digit loop, without the range checks. -/
def decFold (n : Nat) (ds : List Char) : Nat := ds.foldl (fun a c => a * 10 + digitVal c) n

/-! ## The cycle -/

/-- The configuration options of `config.json`. -/
structure Configuration where
  HAproxyUsername : String
  HAproxyPassword : String
  HAproxyUrl : String
  StatsdAddr : String
  StatsdPrefix : String
  SleepPeriod : Int

/-- What `StatsEmitter` can see of an HTTP response: the status code, which it
never reads, and the body, as its lines without their line ends, closed by
end-of-data or by a read error. -/
structure Response where
  StatusCode : Nat
  Body : List String
  bodyError : Option String

/-- The surroundings of one cycle: the answers of the HTTP client and of the
statsd client, the decoder of the CSV lines that hold a quote (the record, and
how many further lines its quoted fields run over), and the order in which the
map of the record read at a given `lineCount` is ranged over. -/
structure World where
  NewRequest : String → Bool
  Do : String → String → String → Except String Response
  statsdNew : String → String → Except String Unit
  quoted : String → List String → Except String (List String) × Nat
  order : Nat → List String

/-- The fields of a line without quotes: the pieces between the commas. -/
def splitComma : List Char → List (List Char)
  | [] => [[]]
  | c :: cs =>
    if c == ',' then [] :: splitComma cs
    else
      match splitComma cs with
      | f :: fs => (c :: f) :: fs
      | [] => [[c]]

/-- The results of the successive calls of `reader.Read`, up to the first
error or to `io.EOF` (the end of the list), for a `csv.Reader` with
`Comment = '#'` and the default `FieldsPerRecord = 0`: a line that begins with
the comment character is skipped, so is an empty line, and a record whose
number of fields differs from the first record's is an error. -/
def csvReads (quoted : String → List String → Except String (List String) × Nat)
    (bodyError : Option String) :
    List String → Nat → Nat → List (Except String (List String))
  | [], _, _ =>
    match bodyError with
    | some e => [.error e]
    | none => []
  | _ :: rest, skip + 1, fieldsPerRecord => csvReads quoted bodyError rest skip fieldsPerRecord
  | line :: rest, 0, fieldsPerRecord =>
    if line.data.head? == some '#' then csvReads quoted bodyError rest 0 fieldsPerRecord
    else if line.data.isEmpty then csvReads quoted bodyError rest 0 fieldsPerRecord
    else
      let decoded :=
        if line.data.contains '"' then quoted line rest
        else (.ok ((splitComma line.data).map String.mk), 0)
      match decoded.1 with
      | .error e => [.error e]
      | .ok record =>
        if fieldsPerRecord > 0 && record.length != fieldsPerRecord then
          [.error "wrong number of fields"]
        else
          .ok record :: csvReads quoted bodyError rest decoded.2
            (if fieldsPerRecord == 0 then record.length else fieldsPerRecord)

/-- Lines 61-123: the read loop.  `io.EOF` ends it, another error of `Read`
panics, and a panic inside the body ends the cycle with the gauges sent so
far. -/
def readLoop (order : Nat → List String) :
    List (Except String (List String)) → Nat → List MetricPoint → Outcome
  | [], _, sent => ⟨sent, none⟩
  | .error e :: _, _, sent => ⟨sent, some (.csv e)⟩
  | .ok record :: rest, lineCount, sent =>
    let o := processRecord (order lineCount) record sent
    match o.panic with
    | some _ => o
    | none => readLoop order rest (lineCount + 1) o.gauges

/-- Lines 38-126: one cycle. -/
def StatsEmitter (configuration : Configuration) (world : World) : Outcome :=
  if !world.NewRequest configuration.HAproxyUrl then ⟨[], some .nilRequest⟩
  else
    match world.Do configuration.HAproxyUrl configuration.HAproxyUsername
        configuration.HAproxyPassword with
    | .error e => ⟨[], some (.transport e)⟩
    | .ok resp =>
      let reader := csvReads world.quoted resp.bodyError resp.Body 0 0
      match world.statsdNew configuration.StatsdAddr configuration.StatsdPrefix with
      | .error e => ⟨[], some (.statsd e)⟩
      | .ok _ => readLoop world.order reader 1 []

/-- The line of a report that carries `scenarioRow`. -/
def scenarioLine : String :=
  "web,srv1,,,,,,,,,,,5,10,,,,,,,,,,,,,,,,,,,,,,,,,,0,0,0,0,0,,,,,,,,,,,,,,,,,,"

/-- A configuration for the examples. -/
def sampleConfiguration : Configuration :=
  ⟨"admin", "secret", "http://127.0.0.1:8080/stats;csv", "127.0.0.1:8125", "haproxy", 10⟩

/-- A world in which every call succeeds and the statistics source answers
with the given response; the maps are ranged over in the order of `fieldKeys`. -/
def answering (resp : Response) : World where
  NewRequest := fun _ => true
  Do := fun _ _ _ => .ok resp
  statsdNew := fun _ _ => .ok ()
  quoted := fun _ _ => (.error "quoted field", 0)
  order := fun _ => fieldKeys

/-! ## Vocabulary of the statements -/

/-- The field of a row at a position, `""` past its end. -/
def field (record : List String) (i : Nat) : String := record.getD i ""

/-- The numeric field keys of the source, each with the position it is read
from. -/
def numericFields : List (String × Nat) :=
  [("scur", 4), ("smax", 5), ("bin", 8), ("bout", 9), ("ereq", 12), ("econ", 13),
   ("rate", 33), ("hrsp_1xx", 39), ("hrsp_2xx", 40), ("hrsp_3xx", 41), ("hrsp_4xx", 42),
   ("hrsp_5xx", 43), ("qtime", 58), ("ctime", 59), ("rtime", 60), ("ttime", 61)]

/-- The positions of the numeric fields. -/
def numericPositions : List Nat :=
  [4, 5, 8, 9, 12, 13, 33, 39, 40, 41, 42, 43, 58, 59, 60, 61]

/-- The positions the source reads: the two names and the numeric fields. -/
def selectedPositions : List Nat :=
  [0, 1, 4, 5, 8, 9, 12, 13, 33, 39, 40, 41, 42, 43, 58, 59, 60, 61]

/-- The metric name `<normalized entity>.<sub-entity>.<field key>` of a row. -/
def metricName (record : List String) (key : String) : String :=
  replaceColon (field record 0) ++ "." ++ field record 1 ++ "." ++ key

/-- The string handed to `Atoi` for a raw value: `"0"` for the empty one. -/
def normalized (valueStr : String) : String :=
  if valueStr.length == 0 then "0" else valueStr

/-- The guard of line 97: the key is neither `pxname` nor `svname`. -/
def isNumericKey (key : String) : Bool := key != "pxname" && key != "svname"

/-- The name built at lines 113-115 from the map. -/
def loopName (properties : GoMap) (key : String) : String :=
  properties.get "pxname" ++ "." ++ properties.get "svname" ++ "." ++ key

/-- The value `Atoi` gives the normalized raw value of a key, `0` when it
gives none. -/
def loopValue (properties : GoMap) (key : String) : Int :=
  match Atoi (normalized (properties.get key)) with
  | .ok v => v
  | .error _ => 0

/-- The map `properties` of a row of 62 fields or more, after line 88. -/
def mappedOf (record : List String) : GoMap :=
  [("ttime", field record 61), ("rtime", field record 60), ("ctime", field record 59),
   ("qtime", field record 58), ("hrsp_5xx", field record 43), ("hrsp_4xx", field record 42),
   ("hrsp_3xx", field record 41), ("hrsp_2xx", field record 40), ("hrsp_1xx", field record 39),
   ("rate", field record 33), ("econ", field record 13), ("ereq", field record 12),
   ("bout", field record 9), ("bin", field record 8), ("smax", field record 5),
   ("scur", field record 4), ("svname", field record 1), ("pxname", field record 0)]

/-- The map `properties` of a row of 62 fields or more, when the `range` loop
starts. -/
def propertiesOf (record : List String) : GoMap :=
  [("pxname", replaceColon (field record 0)),
   ("ttime", field record 61), ("rtime", field record 60), ("ctime", field record 59),
   ("qtime", field record 58), ("hrsp_5xx", field record 43), ("hrsp_4xx", field record 42),
   ("hrsp_3xx", field record 41), ("hrsp_2xx", field record 40), ("hrsp_1xx", field record 39),
   ("rate", field record 33), ("econ", field record 13), ("ereq", field record 12),
   ("bout", field record 9), ("bin", field record 8), ("smax", field record 5),
   ("scur", field record 4), ("svname", field record 1)]

/-- A row whose entity name and sub-entity name both hold the reserved
separator; every numeric field is empty. -/
def colonRow : List String :=
  ((List.replicate 62 "").set 0 "web:8080").set 1 "srv:1"

/-- The gauges of the scenario row, in the order of `numericFields`. -/
def scenarioGauges : List MetricPoint :=
  [("web.srv1.scur", 0), ("web.srv1.smax", 0), ("web.srv1.bin", 0), ("web.srv1.bout", 0),
   ("web.srv1.ereq", 5), ("web.srv1.econ", 10), ("web.srv1.rate", 0),
   ("web.srv1.hrsp_1xx", 0), ("web.srv1.hrsp_2xx", 0), ("web.srv1.hrsp_3xx", 0),
   ("web.srv1.hrsp_4xx", 0), ("web.srv1.hrsp_5xx", 0), ("web.srv1.qtime", 0),
   ("web.srv1.ctime", 0), ("web.srv1.rtime", 0), ("web.srv1.ttime", 0)]

/-- A row of 62 fields with the given entity name and sub-entity name, every
other field empty. -/
def namedRow (pxname svname : String) : List String :=
  ((List.replicate 62 "").set 0 pxname).set 1 svname

/-- A report whose two lines are comments. -/
def commentReport : Response := ⟨200, ["# pxname,svname,qcur,qmax,scur,smax", "#web,srv1,0"], none⟩

/-! ## Facts about `Atoi` -/

theorem decFold_ge (ds : List Char) (n : Nat) : n ≤ decFold n ds := by
  induction ds generalizing n with
  | nil => simp [decFold]
  | cons c cs ih =>
    have h := ih (n * 10 + digitVal c)
    simp only [decFold, List.foldl_cons] at h ⊢
    omega

theorem decFold_eq (ds : List Char) (n : Nat) :
    decFold n ds = n * 10 ^ ds.length + decimalValue ds := by
  induction ds generalizing n with
  | nil => simp [decFold, decimalValue]
  | cons c cs ih =>
    have h := ih (n * 10 + digitVal c)
    simp only [decFold, List.foldl_cons] at h ⊢
    rw [h]
    simp only [decimalValue, List.reverse_cons, List.map_append, List.map_cons, List.map_nil,
      Nat.ofDigits_append, Nat.ofDigits_singleton, List.length_map, List.length_reverse,
      List.length_cons]
    ring

theorem parseUintLoop_ok_iff (ds : List Char) (n m : Nat) (hn : n < 2 ^ 64) :
    parseUintLoop ds n = .ok m ↔
      (ds.all isDigit = true ∧ m = decFold n ds ∧ decFold n ds < 2 ^ 64) := by
  induction ds generalizing n with
  | nil =>
    simp only [parseUintLoop, decFold, List.foldl_nil, List.all_nil, true_and, Except.ok.injEq]
    constructor
    · intro h; subst h; exact ⟨rfl, hn⟩
    · intro h; exact h.1.symm
  | cons c cs ih =>
    have hge := decFold_ge cs (n * 10 + digitVal c)
    simp only [parseUintLoop, List.all_cons, Bool.and_eq_true]
    by_cases hd : isDigit c = true
    · simp only [hd, if_true, true_and]
      by_cases h1 : n ≥ (2 ^ 64 - 1) / 10 + 1
      · rw [if_pos h1]
        simp only [decFold, List.foldl_cons] at hge ⊢
        norm_num at h1
        constructor
        · intro h; cases h
        · intro h; omega
      · rw [if_neg h1]
        by_cases h2 : n * 10 + digitVal c > 2 ^ 64 - 1
        · simp only [h2, if_true]
          simp only [decFold, List.foldl_cons] at hge ⊢
          norm_num at h2
          constructor
          · intro h; cases h
          · intro h; omega
        · simp only [h2, if_false]
          have h3 : n * 10 + digitVal c < 2 ^ 64 := by
            norm_num at h2 ⊢; omega
          rw [ih (n * 10 + digitVal c) h3]
          simp [decFold]
    · simp only [hd, if_false, false_and]
      constructor
      · intro h; cases h
      · intro h; exact absurd h (by simp)

theorem parseUintLoop_zero (ds : List Char) (m : Nat) :
    parseUintLoop ds 0 = .ok m ↔
      (ds.all isDigit = true ∧ m = decimalValue ds ∧ decimalValue ds < 2 ^ 64) := by
  rw [parseUintLoop_ok_iff ds 0 m (by norm_num), decFold_eq]
  simp

theorem ParseUint_ok_iff (ds : List Char) (m : Nat) :
    ParseUint ds = .ok m ↔
      ((!ds.isEmpty && ds.all isDigit) = true ∧ m = decimalValue ds ∧
        decimalValue ds < 2 ^ 64) := by
  unfold ParseUint
  cases ds with
  | nil => simp
  | cons c cs =>
    rw [if_neg (by simp), parseUintLoop_zero]
    simp

theorem signed_ok_iff (neg : Bool) (ds : List Char) (v : Int) :
    (match ParseUint ds with
      | .error e => (Except.error e : Except NumError Int)
      | .ok un =>
        if !neg && un ≥ 2 ^ (intSize - 1) then .error .ErrRange
        else if neg && un > 2 ^ (intSize - 1) then .error .ErrRange
        else .ok (if neg then -(un : Int) else (un : Int))) = .ok v ↔
      signedDecimal neg ds = some v := by
  unfold signedDecimal
  cases h : ParseUint ds with
  | error e =>
    have hno : ¬ ((!ds.isEmpty && ds.all isDigit) = true ∧ decimalValue ds < 2 ^ 64) := by
      intro hc
      have := (ParseUint_ok_iff ds (decimalValue ds)).2 ⟨hc.1, rfl, hc.2⟩
      rw [h] at this
      cases this
    by_cases hc : (!ds.isEmpty && ds.all isDigit) = true
    · have hbig : 2 ^ 64 ≤ decimalValue ds := by
        by_contra hlt
        exact hno ⟨hc, by omega⟩
      have hbig2 : (2 ^ 64 : Int) ≤ (decimalValue ds : Int) := by exact_mod_cast hbig
      rw [if_pos hc]
      cases neg
      · simp only [Bool.false_eq_true, if_false]
        rw [if_neg (by norm_num at hbig2 ⊢; omega)]
        simp
      · simp only [if_true]
        rw [if_neg (by norm_num at hbig2 ⊢; omega)]
        simp
    · rw [if_neg hc]
      simp
  | ok un =>
    obtain ⟨hc, hun, hlt⟩ := (ParseUint_ok_iff ds un).1 h
    rw [if_pos hc, ← hun]
    simp only [intSize]
    cases neg
    · simp only [Bool.not_false, Bool.true_and, Bool.false_and, Bool.false_eq_true, if_false,
        decide_eq_true_eq]
      by_cases hr : un ≥ 2 ^ 63
      · rw [if_pos (by simpa using hr)]
        have : ¬ ((un : Int) ≤ 2 ^ 63 - 1) := by
          have : (2 ^ 63 : Int) ≤ (un : Int) := by exact_mod_cast hr
          omega
        norm_num at hr
        simp
        omega
      · rw [if_neg (by simpa using hr)]
        have h1 : (un : Int) ≤ 2 ^ 63 - 1 := by
          have : (un : Int) < 2 ^ 63 := by exact_mod_cast (not_le.1 hr)
          omega
        have h0 : -(2 ^ 63 : Int) ≤ (un : Int) := by
          have : (0 : Int) ≤ (un : Int) := Int.natCast_nonneg un
          norm_num
          omega
        norm_num at hr
        simp
        omega
    · simp only [Bool.not_true, Bool.false_and, Bool.true_and, Bool.false_eq_true, if_false,
        if_true, decide_eq_true_eq]
      by_cases hr : un > 2 ^ 63
      · rw [if_pos hr]
        have : ¬ (-(2 ^ 63 : Int) ≤ -(un : Int)) := by
          have : (2 ^ 63 : Int) < (un : Int) := by exact_mod_cast hr
          omega
        norm_num at hr
        simp
        omega
      · rw [if_neg hr]
        have h0 : -(2 ^ 63 : Int) ≤ -(un : Int) := by
          have : (un : Int) ≤ 2 ^ 63 := by exact_mod_cast (not_lt.1 hr)
          omega
        have h1 : -(un : Int) ≤ 2 ^ 63 - 1 := by
          have : (0 : Int) ≤ (un : Int) := Int.natCast_nonneg un
          norm_num
          omega
        norm_num at hr
        simp
        omega

theorem Atoi_eq_ok_iff (s : String) (v : Int) : Atoi s = .ok v ↔ denotedInt s = some v := by
  unfold Atoi denotedInt
  cases hs : s.data with
  | nil => simp [ParseInt]
  | cons c r =>
    simp only [ParseInt]
    by_cases hm : c = '-'
    · subst hm
      simpa using signed_ok_iff true r v
    · by_cases hp : c = '+'
      · subst hp
        simpa using signed_ok_iff false r v
      · simpa [hm, hp] using signed_ok_iff false (c :: r) v

theorem Atoi_error_iff (s : String) : (∃ e, Atoi s = .error e) ↔ denotedInt s = none := by
  constructor
  · rintro ⟨e, he⟩
    cases hd : denotedInt s with
    | none => rfl
    | some v =>
      have := (Atoi_eq_ok_iff s v).2 hd
      rw [he] at this
      cases this
  · intro hd
    cases ha : Atoi s with
    | error e => exact ⟨e, rfl⟩
    | ok v =>
      have := (Atoi_eq_ok_iff s v).1 ha
      rw [hd] at this
      cases this


/-! ## Facts about the body of the read loop -/

theorem index_ok (record : List String) (i : Nat) (h : i < record.length) :
    index record i = .ok (field record i) := by
  simp [index, field, List.getElem?_eq_getElem h, List.getD_eq_getElem?_getD]

theorem index_error (record : List String) (i : Nat) (h : record.length ≤ i) :
    index record i = .error (.indexOutOfRange i record.length) := by
  simp [index, List.getElem?_eq_none h]

theorem mapping_ok (record : List String) (h : 62 ≤ record.length) :
    mapping record = .ok (mappedOf record) := by
  simp only [mapping, index_ok record _ (show 0 < record.length by omega),
      index_ok record _ (show 1 < record.length by omega),
      index_ok record _ (show 4 < record.length by omega),
      index_ok record _ (show 5 < record.length by omega),
      index_ok record _ (show 8 < record.length by omega),
      index_ok record _ (show 9 < record.length by omega),
      index_ok record _ (show 12 < record.length by omega),
      index_ok record _ (show 13 < record.length by omega),
      index_ok record _ (show 33 < record.length by omega),
      index_ok record _ (show 39 < record.length by omega),
      index_ok record _ (show 40 < record.length by omega),
      index_ok record _ (show 41 < record.length by omega),
      index_ok record _ (show 42 < record.length by omega),
      index_ok record _ (show 43 < record.length by omega),
      index_ok record _ (show 58 < record.length by omega),
      index_ok record _ (show 59 < record.length by omega),
      index_ok record _ (show 60 < record.length by omega),
      index_ok record _ (show 61 < record.length by omega)]
  simp [GoMap.set, mappedOf, bind, Except.bind, pure, Except.pure]

theorem mappedOf_replace (record : List String) :
    (mappedOf record).set "pxname" (replaceColon ((mappedOf record).get "pxname")) =
      propertiesOf record := by
  simp [GoMap.set, GoMap.get, propertiesOf, mappedOf, List.lookup]

theorem processRecord_ok (order record : List String) (sent : List MetricPoint)
    (h : 62 ≤ record.length) :
    processRecord order record sent = rangeLoop (propertiesOf record) order sent := by
  simp only [processRecord, mapping_ok record h, mappedOf_replace]

theorem rangeLoop_cons (properties : GoMap) (key : String) (rest : List String)
    (sent : List MetricPoint) :
    rangeLoop properties (key :: rest) sent =
      if isNumericKey key then
        match Atoi (normalized (properties.get key)) with
        | .error e => ⟨sent, some (.atoi (normalized (properties.get key)) e)⟩
        | .ok value => rangeLoop properties rest (sent ++ [(loopName properties key, value)])
      else rangeLoop properties rest sent := by
  rfl

theorem rangeLoop_all_ok (properties : GoMap) (order : List String) (sent : List MetricPoint)
    (h : ∀ key ∈ order, isNumericKey key = true →
      ∃ v, Atoi (normalized (properties.get key)) = .ok v) :
    rangeLoop properties order sent =
      ⟨sent ++ (order.filter isNumericKey).map
        (fun key => (loopName properties key, loopValue properties key)), none⟩ := by
  induction order generalizing sent with
  | nil => simp [rangeLoop]
  | cons key rest ih =>
    have hrest : ∀ k ∈ rest, isNumericKey k = true →
        ∃ v, Atoi (normalized (properties.get k)) = .ok v :=
      fun k hk => h k (List.mem_cons_of_mem _ hk)
    rw [rangeLoop_cons]
    by_cases hk : isNumericKey key = true
    · obtain ⟨v, hv⟩ := h key (List.mem_cons_self _ _) hk
      simp only [hk, if_true, hv, ih _ hrest, List.filter_cons, List.map_cons, loopValue,
        List.append_assoc, List.singleton_append]
    · simp only [hk, if_false, Bool.false_eq_true, ih _ hrest, List.filter_cons]

theorem rangeLoop_panic_iff (properties : GoMap) (order : List String)
    (sent : List MetricPoint) :
    (rangeLoop properties order sent).panic.isSome = true ↔
      ∃ key ∈ order, isNumericKey key = true ∧
        ∃ e, Atoi (normalized (properties.get key)) = .error e := by
  induction order generalizing sent with
  | nil => simp [rangeLoop]
  | cons key rest ih =>
    rw [rangeLoop_cons]
    by_cases hk : isNumericKey key = true
    · cases hv : Atoi (normalized (properties.get key)) with
      | error e =>
        simp only [hk, if_true, Option.isSome_some, true_iff]
        exact ⟨key, List.mem_cons_self _ _, hk, e, hv⟩
      | ok v =>
        simp only [hk, if_true, ih, List.mem_cons]
        constructor
        · rintro ⟨k, hmem, hnum, e, he⟩
          exact ⟨k, Or.inr hmem, hnum, e, he⟩
        · rintro ⟨k, hmem | hmem, hnum, e, he⟩
          · subst hmem
            rw [hv] at he
            cases he
          · exact ⟨k, hmem, hnum, e, he⟩
    · simp only [hk, if_false, Bool.false_eq_true, ih, List.mem_cons]
      constructor
      · rintro ⟨k, hmem, hnum, e, he⟩
        exact ⟨k, Or.inr hmem, hnum, e, he⟩
      · rintro ⟨k, hmem | hmem, hnum, e, he⟩
        · subst hmem
          exact absurd hnum hk
        · exact ⟨k, hmem, hnum, e, he⟩

theorem rangeLoop_mem (properties : GoMap) (order : List String) (sent : List MetricPoint)
    (p : MetricPoint) (hp : p ∈ (rangeLoop properties order sent).gauges) :
    p ∈ sent ∨ ∃ key ∈ order, isNumericKey key = true ∧
      ∃ v, Atoi (normalized (properties.get key)) = .ok v ∧
        p = (loopName properties key, v) := by
  induction order generalizing sent with
  | nil => exact Or.inl (by simpa [rangeLoop] using hp)
  | cons key rest ih =>
    rw [rangeLoop_cons] at hp
    by_cases hk : isNumericKey key = true
    · cases hv : Atoi (normalized (properties.get key)) with
      | error e =>
        simp only [hk, if_true, hv] at hp
        exact Or.inl hp
      | ok v =>
        simp only [hk, if_true, hv] at hp
        rcases ih _ hp with h | ⟨k, hmem, hnum, w, hw, hpw⟩
        · rcases List.mem_append.1 h with h | h
          · exact Or.inl h
          · refine Or.inr ⟨key, List.mem_cons_self _ _, hk, v, hv, ?_⟩
            simpa using h
        · exact Or.inr ⟨k, List.mem_cons_of_mem _ hmem, hnum, w, hw, hpw⟩
    · simp only [hk, if_false, Bool.false_eq_true] at hp
      rcases ih _ hp with h | ⟨k, hmem, hnum, w, hw, hpw⟩
      · exact Or.inl h
      · exact Or.inr ⟨k, List.mem_cons_of_mem _ hmem, hnum, w, hw, hpw⟩

theorem rangeLoop_no_panic (properties : GoMap) (order : List String)
    (sent : List MetricPoint) (h : (rangeLoop properties order sent).panic = none) :
    rangeLoop properties order sent =
      ⟨sent ++ (order.filter isNumericKey).map
        (fun key => (loopName properties key, loopValue properties key)), none⟩ := by
  apply rangeLoop_all_ok
  intro key hmem hnum
  cases hv : Atoi (normalized (properties.get key)) with
  | ok v => exact ⟨v, rfl⟩
  | error e =>
    have := (rangeLoop_panic_iff properties order sent).2 ⟨key, hmem, hnum, e, hv⟩
    rw [h] at this
    cases this

theorem mapping_error (record : List String) (h : record.length < 62) :
    ∃ i, i ≤ 61 ∧ record.length ≤ i ∧
      mapping record = .error (.indexOutOfRange i record.length) := by
  by_cases h0 : 0 < record.length
  swap
  · exact ⟨0, by omega, by omega, by
      simp [mapping, index_error record 0 (by omega), bind, Except.bind]⟩
  by_cases h1 : 1 < record.length
  swap
  · exact ⟨1, by omega, by omega, by
      simp [mapping, index_ok record 0 h0, index_error record 1 (by omega), bind, Except.bind]⟩
  by_cases h4 : 4 < record.length
  swap
  · exact ⟨4, by omega, by omega, by
      simp [mapping, index_ok record 0 h0, index_ok record 1 h1, index_error record 4 (by omega), bind, Except.bind]⟩
  by_cases h5 : 5 < record.length
  swap
  · exact ⟨5, by omega, by omega, by
      simp [mapping, index_ok record 0 h0, index_ok record 1 h1, index_ok record 4 h4, index_error record 5 (by omega), bind, Except.bind]⟩
  by_cases h8 : 8 < record.length
  swap
  · exact ⟨8, by omega, by omega, by
      simp [mapping, index_ok record 0 h0, index_ok record 1 h1, index_ok record 4 h4, index_ok record 5 h5, index_error record 8 (by omega), bind, Except.bind]⟩
  by_cases h9 : 9 < record.length
  swap
  · exact ⟨9, by omega, by omega, by
      simp [mapping, index_ok record 0 h0, index_ok record 1 h1, index_ok record 4 h4, index_ok record 5 h5, index_ok record 8 h8, index_error record 9 (by omega), bind, Except.bind]⟩
  by_cases h12 : 12 < record.length
  swap
  · exact ⟨12, by omega, by omega, by
      simp [mapping, index_ok record 0 h0, index_ok record 1 h1, index_ok record 4 h4, index_ok record 5 h5, index_ok record 8 h8, index_ok record 9 h9, index_error record 12 (by omega), bind, Except.bind]⟩
  by_cases h13 : 13 < record.length
  swap
  · exact ⟨13, by omega, by omega, by
      simp [mapping, index_ok record 0 h0, index_ok record 1 h1, index_ok record 4 h4, index_ok record 5 h5, index_ok record 8 h8, index_ok record 9 h9, index_ok record 12 h12, index_error record 13 (by omega), bind, Except.bind]⟩
  by_cases h33 : 33 < record.length
  swap
  · exact ⟨33, by omega, by omega, by
      simp [mapping, index_ok record 0 h0, index_ok record 1 h1, index_ok record 4 h4, index_ok record 5 h5, index_ok record 8 h8, index_ok record 9 h9, index_ok record 12 h12, index_ok record 13 h13, index_error record 33 (by omega), bind, Except.bind]⟩
  by_cases h39 : 39 < record.length
  swap
  · exact ⟨39, by omega, by omega, by
      simp [mapping, index_ok record 0 h0, index_ok record 1 h1, index_ok record 4 h4, index_ok record 5 h5, index_ok record 8 h8, index_ok record 9 h9, index_ok record 12 h12, index_ok record 13 h13, index_ok record 33 h33, index_error record 39 (by omega), bind, Except.bind]⟩
  by_cases h40 : 40 < record.length
  swap
  · exact ⟨40, by omega, by omega, by
      simp [mapping, index_ok record 0 h0, index_ok record 1 h1, index_ok record 4 h4, index_ok record 5 h5, index_ok record 8 h8, index_ok record 9 h9, index_ok record 12 h12, index_ok record 13 h13, index_ok record 33 h33, index_ok record 39 h39, index_error record 40 (by omega), bind, Except.bind]⟩
  by_cases h41 : 41 < record.length
  swap
  · exact ⟨41, by omega, by omega, by
      simp [mapping, index_ok record 0 h0, index_ok record 1 h1, index_ok record 4 h4, index_ok record 5 h5, index_ok record 8 h8, index_ok record 9 h9, index_ok record 12 h12, index_ok record 13 h13, index_ok record 33 h33, index_ok record 39 h39, index_ok record 40 h40, index_error record 41 (by omega), bind, Except.bind]⟩
  by_cases h42 : 42 < record.length
  swap
  · exact ⟨42, by omega, by omega, by
      simp [mapping, index_ok record 0 h0, index_ok record 1 h1, index_ok record 4 h4, index_ok record 5 h5, index_ok record 8 h8, index_ok record 9 h9, index_ok record 12 h12, index_ok record 13 h13, index_ok record 33 h33, index_ok record 39 h39, index_ok record 40 h40, index_ok record 41 h41, index_error record 42 (by omega), bind, Except.bind]⟩
  by_cases h43 : 43 < record.length
  swap
  · exact ⟨43, by omega, by omega, by
      simp [mapping, index_ok record 0 h0, index_ok record 1 h1, index_ok record 4 h4, index_ok record 5 h5, index_ok record 8 h8, index_ok record 9 h9, index_ok record 12 h12, index_ok record 13 h13, index_ok record 33 h33, index_ok record 39 h39, index_ok record 40 h40, index_ok record 41 h41, index_ok record 42 h42, index_error record 43 (by omega), bind, Except.bind]⟩
  by_cases h58 : 58 < record.length
  swap
  · exact ⟨58, by omega, by omega, by
      simp [mapping, index_ok record 0 h0, index_ok record 1 h1, index_ok record 4 h4, index_ok record 5 h5, index_ok record 8 h8, index_ok record 9 h9, index_ok record 12 h12, index_ok record 13 h13, index_ok record 33 h33, index_ok record 39 h39, index_ok record 40 h40, index_ok record 41 h41, index_ok record 42 h42, index_ok record 43 h43, index_error record 58 (by omega), bind, Except.bind]⟩
  by_cases h59 : 59 < record.length
  swap
  · exact ⟨59, by omega, by omega, by
      simp [mapping, index_ok record 0 h0, index_ok record 1 h1, index_ok record 4 h4, index_ok record 5 h5, index_ok record 8 h8, index_ok record 9 h9, index_ok record 12 h12, index_ok record 13 h13, index_ok record 33 h33, index_ok record 39 h39, index_ok record 40 h40, index_ok record 41 h41, index_ok record 42 h42, index_ok record 43 h43, index_ok record 58 h58, index_error record 59 (by omega), bind, Except.bind]⟩
  by_cases h60 : 60 < record.length
  swap
  · exact ⟨60, by omega, by omega, by
      simp [mapping, index_ok record 0 h0, index_ok record 1 h1, index_ok record 4 h4, index_ok record 5 h5, index_ok record 8 h8, index_ok record 9 h9, index_ok record 12 h12, index_ok record 13 h13, index_ok record 33 h33, index_ok record 39 h39, index_ok record 40 h40, index_ok record 41 h41, index_ok record 42 h42, index_ok record 43 h43, index_ok record 58 h58, index_ok record 59 h59, index_error record 60 (by omega), bind, Except.bind]⟩
  by_cases h61 : 61 < record.length
  swap
  · exact ⟨61, by omega, by omega, by
      simp [mapping, index_ok record 0 h0, index_ok record 1 h1, index_ok record 4 h4, index_ok record 5 h5, index_ok record 8 h8, index_ok record 9 h9, index_ok record 12 h12, index_ok record 13 h13, index_ok record 33 h33, index_ok record 39 h39, index_ok record 40 h40, index_ok record 41 h41, index_ok record 42 h42, index_ok record 43 h43, index_ok record 58 h58, index_ok record 59 h59, index_ok record 60 h60, index_error record 61 (by omega), bind, Except.bind]⟩
  omega

theorem processRecord_short (order record : List String) (sent : List MetricPoint)
    (h : record.length < 62) :
    ∃ i, i ≤ 61 ∧ record.length ≤ i ∧
      processRecord order record sent = ⟨sent, some (.indexOutOfRange i record.length)⟩ := by
  obtain ⟨i, hi, hle, hm⟩ := mapping_error record h
  exact ⟨i, hi, hle, by simp only [processRecord, hm]⟩

theorem propertiesOf_pxname (record : List String) :
    (propertiesOf record).get "pxname" = replaceColon (field record 0) := by
  simp [propertiesOf, GoMap.get, List.lookup]

theorem propertiesOf_svname (record : List String) :
    (propertiesOf record).get "svname" = field record 1 := by
  simp [propertiesOf, GoMap.get, List.lookup]

theorem loopName_propertiesOf (record : List String) (key : String) :
    loopName (propertiesOf record) key = metricName record key := by
  simp only [loopName, metricName, propertiesOf_pxname, propertiesOf_svname]

theorem numericFields_get (record : List String) (kp : String × Nat)
    (h : kp ∈ numericFields) :
    kp.1 ∈ fieldKeys ∧ isNumericKey kp.1 = true ∧
      (propertiesOf record).get kp.1 = field record kp.2 := by
  simp only [numericFields, List.mem_cons, List.mem_singleton, List.not_mem_nil, or_false] at h
  rcases h with h | h | h | h | h | h | h | h | h | h | h | h | h | h | h | h <;> subst h <;>
    exact ⟨by decide, by decide, by simp [propertiesOf, GoMap.get, List.lookup]⟩

theorem fieldKeys_numeric (key : String) (h : key ∈ fieldKeys) (hn : isNumericKey key = true) :
    ∃ i, (key, i) ∈ numericFields := by
  simp only [fieldKeys, List.mem_cons, List.mem_singleton, List.not_mem_nil, or_false] at h
  rcases h with h | h | h | h | h | h | h | h | h | h | h | h | h | h | h | h | h | h <;>
    subst h
  · exact absurd hn (by decide)
  · exact absurd hn (by decide)
  all_goals simp [numericFields]

theorem length_eq_zero_iff (s : String) : (s.length == 0) = true ↔ s = "" := by
  cases s with
  | mk data =>
    cases data with
    | nil => exact ⟨fun _ => rfl, fun _ => rfl⟩
    | cons c cs =>
      constructor
      · intro h
        simp [String.length] at h
      · intro h
        have := congrArg String.data h
        simp at this

theorem normalized_empty : normalized "" = "0" := by rfl

theorem normalized_of_ne (s : String) (h : s ≠ "") : normalized s = s := by
  unfold normalized
  rw [if_neg]
  intro hl
  exact h ((length_eq_zero_iff s).1 hl)

theorem Atoi_zero : Atoi "0" = .ok 0 := by rfl

theorem Atoi_normalized_error_iff (s : String) :
    (∃ e, Atoi (normalized s) = .error e) ↔ (s ≠ "" ∧ ∃ e, Atoi s = .error e) := by
  by_cases h : s = ""
  · subst h
    rw [normalized_empty, Atoi_zero]
    simp
  · rw [normalized_of_ne s h]
    simp [h]

theorem append_left_cancel (a b c : String) (h : a ++ b = a ++ c) : b = c := by
  have := congrArg String.data h
  simp only [String.data_append] at this
  exact String.ext (List.append_cancel_left this)

theorem metricName_injective (record : List String) (k1 k2 : String)
    (h : metricName record k1 = metricName record k2) : k1 = k2 :=
  append_left_cancel _ _ _ h

theorem perm_numeric_mem (order : List String) (hperm : order.Perm fieldKeys) (key : String) :
    (key ∈ order ∧ isNumericKey key = true) ↔ ∃ i, (key, i) ∈ numericFields := by
  constructor
  · rintro ⟨hmem, hn⟩
    exact fieldKeys_numeric key (hperm.mem_iff.1 hmem) hn
  · rintro ⟨i, hi⟩
    have := numericFields_get [] (key, i) hi
    exact ⟨hperm.mem_iff.2 this.1, this.2.1⟩

theorem processRecord_aborted_iff (order record : List String) (sent : List MetricPoint)
    (hperm : order.Perm fieldKeys) :
    (processRecord order record sent).aborted = true ↔
      (record.length < 62 ∨ ∃ kp ∈ numericFields,
        field record kp.2 ≠ "" ∧ ∃ e, Atoi (field record kp.2) = .error e) := by
  by_cases hlen : record.length < 62
  · obtain ⟨i, _, _, hi⟩ := processRecord_short order record sent hlen
    simp [hi, Outcome.aborted, hlen]
  · rw [processRecord_ok order record sent (by omega), Outcome.aborted, rangeLoop_panic_iff]
    simp only [hlen, false_or]
    constructor
    · rintro ⟨key, hmem, hn, he⟩
      obtain ⟨i, hi⟩ := (perm_numeric_mem order hperm key).1 ⟨hmem, hn⟩
      have hget := (numericFields_get record (key, i) hi).2.2
      rw [hget] at he
      exact ⟨(key, i), hi, (Atoi_normalized_error_iff _).1 he⟩
    · rintro ⟨kp, hkp, hne⟩
      have hget := numericFields_get record kp hkp
      have hm := (perm_numeric_mem order hperm kp.1).2 ⟨kp.2, hkp⟩
      refine ⟨kp.1, hm.1, hm.2, ?_⟩
      rw [hget.2.2]
      exact (Atoi_normalized_error_iff _).2 hne

theorem numericPositions_eq : numericPositions = numericFields.map Prod.snd := by rfl

theorem field_set_ne (record : List String) (i j : Nat) (v : String) (h : j ≠ i) :
    field (record.set j v) i = field record i := by
  simp [field, List.getD_eq_getElem?_getD, List.getElem?_set_ne h]

theorem numericPositions_ge (i : Nat) (h : i ∈ numericPositions) : 4 ≤ i := by
  simp only [numericPositions, List.mem_cons, List.mem_singleton, List.not_mem_nil,
    or_false] at h
  omega

theorem propertiesOf_congr (r1 r2 : List String)
    (h : ∀ i ∈ selectedPositions, field r1 i = field r2 i) :
    propertiesOf r1 = propertiesOf r2 := by
  simp only [propertiesOf, h 0 (by decide), h 1 (by decide), h 4 (by decide), h 5 (by decide),
    h 8 (by decide), h 9 (by decide), h 12 (by decide), h 13 (by decide), h 33 (by decide),
    h 39 (by decide), h 40 (by decide), h 41 (by decide), h 42 (by decide), h 43 (by decide),
    h 58 (by decide), h 59 (by decide), h 60 (by decide), h 61 (by decide)]

theorem loopValue_numeric (record : List String) (kp : String × Nat)
    (hkp : kp ∈ numericFields)
    (h : field record kp.2 = "" ∨ (denotedInt (field record kp.2)).isSome = true) :
    Atoi (normalized ((propertiesOf record).get kp.1)) = .ok (fieldValue (field record kp.2)) := by
  rw [(numericFields_get record kp hkp).2.2]
  by_cases he : field record kp.2 = ""
  · rw [he, normalized_empty, Atoi_zero]
    rfl
  · rcases h with h | h
    · exact absurd h he
    · obtain ⟨v, hv⟩ := Option.isSome_iff_exists.1 h
      rw [normalized_of_ne _ he, (Atoi_eq_ok_iff _ v).2 hv]
      simp [fieldValue, he, hv]

theorem filter_numeric_perm (order : List String) (hperm : order.Perm fieldKeys) :
    (order.filter isNumericKey).Perm (numericFields.map Prod.fst) := by
  have h : fieldKeys.filter isNumericKey = numericFields.map Prod.fst := by decide
  rw [← h]
  exact hperm.filter _

theorem replaceColon_data (s : String) :
    (replaceColon s).data = s.data.map (fun c => if c == ':' then '.' else c) := by
  rfl

theorem replaceColon_length (s : String) : (replaceColon s).length = s.length := by
  show (replaceColon s).data.length = s.data.length
  rw [replaceColon_data, List.length_map]

theorem replaceColon_no_colon (s : String) : ':' ∉ (replaceColon s).data := by
  rw [replaceColon_data]
  intro h
  obtain ⟨c, _, hc⟩ := List.mem_map.1 h
  by_cases hcc : c = ':'
  · subst hcc
    simp at hc
  · simp [hcc] at hc

theorem numericFields_no_colon (kp : String × Nat) (h : kp ∈ numericFields) :
    ':' ∉ kp.1.data := by
  simp only [numericFields, List.mem_cons, List.mem_singleton, List.not_mem_nil, or_false] at h
  rcases h with h | h | h | h | h | h | h | h | h | h | h | h | h | h | h | h <;> subst h <;>
    decide

theorem scenarioRow_numeric :
    ∀ kp ∈ numericFields, field scenarioRow kp.2 = "" ∨
      (denotedInt (field scenarioRow kp.2)).isSome = true := by
  intro kp h
  simp only [numericFields, List.mem_cons, List.mem_singleton, List.not_mem_nil, or_false] at h
  rcases h with h | h | h | h | h | h | h | h | h | h | h | h | h | h | h | h <;> subst h
  all_goals first
    | exact Or.inl (by decide)
    | exact Or.inr (by rw [(Atoi_eq_ok_iff _ 0).1 (by rfl)]; rfl)
    | exact Or.inr (by rw [(Atoi_eq_ok_iff _ 5).1 (by rfl)]; rfl)
    | exact Or.inr (by rw [(Atoi_eq_ok_iff _ 10).1 (by rfl)]; rfl)

theorem rangeLoop_sent (properties : GoMap) (order : List String) (sent : List MetricPoint) :
    rangeLoop properties order sent =
      ⟨sent ++ (rangeLoop properties order []).gauges, (rangeLoop properties order []).panic⟩ := by
  induction order generalizing sent with
  | nil => simp [rangeLoop]
  | cons key rest ih =>
    rw [rangeLoop_cons, rangeLoop_cons]
    by_cases hk : isNumericKey key = true
    · cases hv : Atoi (normalized (properties.get key)) with
      | error e => simp [hk]
      | ok v =>
        simp only [hk, if_true, List.nil_append]
        rw [ih (sent ++ [(loopName properties key, v)]), ih [(loopName properties key, v)]]
        simp
    · simp only [hk, if_false, Bool.false_eq_true]
      exact ih sent

theorem processRecord_sent (order record : List String) (sent : List MetricPoint) :
    processRecord order record sent =
      ⟨sent ++ (processRecord order record []).gauges,
        (processRecord order record []).panic⟩ := by
  unfold processRecord
  cases mapping record with
  | error p => simp
  | ok properties => exact rangeLoop_sent _ _ _

theorem processRecord_aborted_perm (o1 o2 record : List String)
    (h1 : o1.Perm fieldKeys) (h2 : o2.Perm fieldKeys) :
    (processRecord o1 record []).aborted = (processRecord o2 record []).aborted := by
  rw [Bool.eq_iff_iff, processRecord_aborted_iff o1 record [] h1,
    processRecord_aborted_iff o2 record [] h2]

theorem panic_none_iff (o : Outcome) : o.panic = none ↔ o.aborted = false := by
  cases o with
  | mk gauges panic => cases panic <;> simp [Outcome.aborted]

theorem processRecord_gauges_perm (o1 o2 record : List String)
    (h1 : o1.Perm fieldKeys) (h2 : o2.Perm fieldKeys)
    (hok : (processRecord o1 record []).panic = none) :
    (processRecord o1 record []).gauges.Perm (processRecord o2 record []).gauges := by
  have hok2 : (processRecord o2 record []).panic = none := by
    rw [panic_none_iff] at hok ⊢
    rw [← processRecord_aborted_perm o1 o2 record h1 h2]
    exact hok
  have hlen : 62 ≤ record.length := by
    by_contra hlt
    obtain ⟨i, _, _, hi⟩ := processRecord_short o1 record [] (by omega)
    rw [hi] at hok
    cases hok
  rw [processRecord_ok o1 record [] hlen] at hok ⊢
  rw [processRecord_ok o2 record [] hlen] at hok2 ⊢
  rw [rangeLoop_no_panic _ _ _ hok, rangeLoop_no_panic _ _ _ hok2]
  simp only [List.nil_append]
  exact (((h1.trans h2.symm).filter _).map _)

theorem readLoop_perm (o1 o2 : Nat → List String)
    (h1 : ∀ n, (o1 n).Perm fieldKeys) (h2 : ∀ n, (o2 n).Perm fieldKeys)
    (reads : List (Except String (List String))) (n m : Nat) (s1 s2 : List MetricPoint)
    (hs : s1.Perm s2) :
    (readLoop o1 reads n s1).aborted = (readLoop o2 reads m s2).aborted ∧
    ((readLoop o1 reads n s1).panic = none →
      (readLoop o1 reads n s1).gauges.Perm (readLoop o2 reads m s2).gauges) := by
  induction reads generalizing n m s1 s2 with
  | nil => exact ⟨rfl, fun _ => hs⟩
  | cons r rest ih =>
    cases r with
    | error e => exact ⟨rfl, fun h => by simp [readLoop] at h⟩
    | ok record =>
      have ha := processRecord_aborted_perm (o1 n) (o2 m) record (h1 n) (h2 m)
      have e1 := processRecord_sent (o1 n) record s1
      have e2 := processRecord_sent (o2 m) record s2
      cases hp1 : (processRecord (o1 n) record []).panic with
      | some p1 =>
        have hab2 : (processRecord (o2 m) record []).aborted = true := by
          rw [← ha]
          simp [Outcome.aborted, hp1]
        obtain ⟨p2, hp2⟩ := Option.isSome_iff_exists.1 hab2
        simp only [readLoop, e1, e2, hp1, hp2, Outcome.aborted, Option.isSome_some, true_and]
        intro h
        cases h
      | none =>
        have hp2 : (processRecord (o2 m) record []).panic = none := by
          rw [panic_none_iff, ← ha, ← panic_none_iff]
          exact hp1
        have hg := processRecord_gauges_perm (o1 n) (o2 m) record (h1 n) (h2 m) hp1
        simp only [readLoop, e1, e2, hp1, hp2]
        exact ih (n + 1) (m + 1) _ _ (hs.append hg)

theorem csvReads_comments (quoted : String → List String → Except String (List String) × Nat)
    (lines : List String) (fieldsPerRecord : Nat)
    (h : ∀ line ∈ lines, line.data.head? = some '#') :
    csvReads quoted none lines 0 fieldsPerRecord = [] := by
  induction lines with
  | nil => rfl
  | cons line rest ih =>
    have hl := h line (List.mem_cons_self _ _)
    simp only [csvReads, hl, beq_self_eq_true, if_true]
    exact ih (fun l hmem => h l (List.mem_cons_of_mem _ hmem))

theorem rangeLoop_congr (P Q : GoMap) (order : List String) (sent : List MetricPoint)
    (hname : ∀ key, loopName P key = loopName Q key)
    (hget : ∀ key, isNumericKey key = true → P.get key = Q.get key) :
    rangeLoop P order sent = rangeLoop Q order sent := by
  induction order generalizing sent with
  | nil => rfl
  | cons key rest ih =>
    rw [rangeLoop_cons, rangeLoop_cons]
    by_cases hk : isNumericKey key = true
    · simp only [hk, if_true, hget key hk, hname key, ih]
    · simp only [hk, if_false, Bool.false_eq_true, ih]

theorem propertiesOf_get_numeric (r1 r2 : List String)
    (h : ∀ i ∈ numericPositions, field r1 i = field r2 i) (key : String)
    (hk : isNumericKey key = true) :
    (propertiesOf r1).get key = (propertiesOf r2).get key := by
  have hk2 : key ≠ "pxname" ∧ key ≠ "svname" := by simpa [isNumericKey] using hk
  have e1 : (key == "pxname") = false := by simp [hk2.1]
  have e2 : (key == "svname") = false := by simp [hk2.2]
  simp only [propertiesOf, GoMap.get, List.lookup, e1, e2, h 4 (by decide), h 5 (by decide),
    h 8 (by decide), h 9 (by decide), h 12 (by decide), h 13 (by decide), h 33 (by decide),
    h 39 (by decide), h 40 (by decide), h 41 (by decide), h 42 (by decide), h 43 (by decide),
    h 58 (by decide), h 59 (by decide), h 60 (by decide), h 61 (by decide)]

/-- The gauges sent before a panic do depend on the order of the map: with a
bad `scur` the row panics at once when `scur` comes first, and after fifteen
gauges when it comes last. -/
theorem gauges_before_panic_depend_on_order :
    processRecord fieldKeys (scenarioRow.set 4 "x") [] =
      ⟨[], some (.atoi "x" .ErrSyntax)⟩ ∧
    (processRecord fieldKeys.reverse (scenarioRow.set 4 "x") []).panic =
      some (.atoi "x" .ErrSyntax) ∧
    (processRecord fieldKeys.reverse (scenarioRow.set 4 "x") []).gauges.length = 15 := by
  decide

/-! ## The claims -/

/-- C4: a row with fewer than 62 fields panics with an index out of range at
one of the positions up to 61, while the map is filled and before any gauge of
the row is sent: the gauges are those sent before the row, and the read loop
stops there with the same panic. -/
theorem short_row_aborts_without_gauge (order : List String) (orders : Nat → List String)
    (record : List String) (rest : List (Except String (List String))) (lineCount : Nat)
    (sent : List MetricPoint) (h : record.length < 62) :
    ∃ i, i ≤ 61 ∧ record.length ≤ i ∧
      processRecord order record sent = ⟨sent, some (.indexOutOfRange i record.length)⟩ ∧
      readLoop orders (.ok record :: rest) lineCount sent =
        ⟨sent, some (.indexOutOfRange i record.length)⟩ := by
  obtain ⟨i, hi, hle, hp⟩ := processRecord_short order record sent h
  refine ⟨i, hi, hle, hp, ?_⟩
  obtain ⟨j, _, _, hq⟩ := processRecord_short (orders lineCount) record sent h
  have hij : j = i := by
    obtain ⟨k, _, _, hk⟩ := mapping_error record h
    simp only [processRecord, hk, Outcome.mk.injEq, Option.some.injEq,
      PanicValue.indexOutOfRange.injEq, true_and, and_true] at hp hq
    omega
  subst hij
  simp only [readLoop, hq]

theorem short_row_aborts_without_gauge_witness :
    ∃ i, i ≤ 61 ∧ ["web", "srv1", "3"].length ≤ i ∧
      processRecord fieldKeys ["web", "srv1", "3"] [("a.b.scur", 1)] =
        ⟨[("a.b.scur", 1)], some (.indexOutOfRange i ["web", "srv1", "3"].length)⟩ ∧
      readLoop (fun _ => fieldKeys) [.ok ["web", "srv1", "3"]] 1 [("a.b.scur", 1)] =
        ⟨[("a.b.scur", 1)], some (.indexOutOfRange i ["web", "srv1", "3"].length)⟩ :=
  short_row_aborts_without_gauge fieldKeys (fun _ => fieldKeys) ["web", "srv1", "3"] [] 1
    [("a.b.scur", 1)] (by decide)

/-- C3: for every order in which the map is ranged over, the processing of a
row panics if and only if the row has fewer than 62 fields or one of the
numeric fields (positions 4, 5, 8, 9, 12, 13, 33, 39-43, 58-61) is not empty and
is refused by `Atoi`; and whatever is put in the entity name and sub-entity name
fields, the row panics or not as before. -/
theorem row_aborts_iff (order record : List String) (sent : List MetricPoint)
    (hperm : order.Perm fieldKeys) :
    ((processRecord order record sent).aborted = true ↔
      (record.length < 62 ∨ ∃ i ∈ numericPositions,
        field record i ≠ "" ∧ ∃ e, Atoi (field record i) = .error e)) ∧
    (∀ pxname svname : String,
      (processRecord order ((record.set 0 pxname).set 1 svname) sent).aborted =
        (processRecord order record sent).aborted) := by
  have key : ∀ r : List String, (processRecord order r sent).aborted = true ↔
      (r.length < 62 ∨ ∃ i ∈ numericPositions,
        field r i ≠ "" ∧ ∃ e, Atoi (field r i) = .error e) := by
    intro r
    rw [processRecord_aborted_iff order r sent hperm, numericPositions_eq]
    simp only [List.mem_map, exists_exists_and_eq_and]
  refine ⟨key record, fun pxname svname => ?_⟩
  rw [Bool.eq_iff_iff, key, key]
  simp only [List.length_set]
  constructor
  · rintro (h | ⟨i, hi, hne⟩)
    · exact Or.inl h
    · have h4 := numericPositions_ge i hi
      rw [field_set_ne _ i 1 _ (by omega), field_set_ne _ i 0 _ (by omega)] at hne
      exact Or.inr ⟨i, hi, hne⟩
  · rintro (h | ⟨i, hi, hne⟩)
    · exact Or.inl h
    · have h4 := numericPositions_ge i hi
      refine Or.inr ⟨i, hi, ?_⟩
      rw [field_set_ne _ i 1 _ (by omega), field_set_ne _ i 0 _ (by omega)]
      exact hne

theorem row_aborts_iff_witness :
    ((processRecord fieldKeys.reverse (scenarioRow.set 33 "12x") []).aborted = true ↔
      ((scenarioRow.set 33 "12x").length < 62 ∨ ∃ i ∈ numericPositions,
        field (scenarioRow.set 33 "12x") i ≠ "" ∧
          ∃ e, Atoi (field (scenarioRow.set 33 "12x") i) = .error e)) ∧
    (∀ pxname svname : String,
      (processRecord fieldKeys.reverse
          (((scenarioRow.set 33 "12x").set 0 pxname).set 1 svname) []).aborted =
        (processRecord fieldKeys.reverse (scenarioRow.set 33 "12x") []).aborted) :=
  row_aborts_iff fieldKeys.reverse (scenarioRow.set 33 "12x") [] (List.reverse_perm _)

/-- C5: for a row of 62 fields or more whose processing does not panic, and a
numeric field key whose raw value is the empty string, a gauge of value 0 is
sent under the name of that key, and every gauge sent under that name has
value 0. -/
theorem empty_field_gives_zero (order record : List String) (kp : String × Nat)
    (hperm : order.Perm fieldKeys) (hlen : 62 ≤ record.length)
    (hok : (processRecord order record []).panic = none)
    (hkp : kp ∈ numericFields) (hempty : field record kp.2 = "") :
    (metricName record kp.1, 0) ∈ (processRecord order record []).gauges ∧
    ∀ v, (metricName record kp.1, v) ∈ (processRecord order record []).gauges → v = 0 := by
  rw [processRecord_ok order record [] hlen] at hok ⊢
  have hval : Atoi (normalized ((propertiesOf record).get kp.1)) = .ok 0 := by
    rw [(numericFields_get record kp hkp).2.2, hempty, normalized_empty, Atoi_zero]
  have hm := (perm_numeric_mem order hperm kp.1).2 ⟨kp.2, hkp⟩
  constructor
  · rw [rangeLoop_no_panic _ _ _ hok]
    simp only [List.nil_append, List.mem_map, List.mem_filter]
    refine ⟨kp.1, ⟨hm.1, hm.2⟩, ?_⟩
    simp only [loopName_propertiesOf, loopValue, hval]
  · intro v hv
    rcases rangeLoop_mem _ _ _ _ hv with h | ⟨key, _, _, w, hw, hpw⟩
    · cases h
    · simp only [loopName_propertiesOf, Prod.mk.injEq] at hpw
      have hkey := metricName_injective record _ _ hpw.1
      rw [← hkey, hval] at hw
      cases hw
      exact hpw.2

theorem empty_field_gives_zero_witness :
    (metricName scenarioRow "scur", 0) ∈ (processRecord fieldKeys scenarioRow []).gauges ∧
    ∀ v, (metricName scenarioRow "scur", v) ∈ (processRecord fieldKeys scenarioRow []).gauges →
      v = 0 :=
  empty_field_gives_zero fieldKeys scenarioRow ("scur", 4) (List.Perm.refl _) (by decide)
    (by decide) (by decide) (by decide)

/-- C6: two rows of 62 fields or more that agree on the selected positions
(0, 1, 4, 5, 8, 9, 12, 13, 33, 39-43, 58-61) have the same outcome, whatever
their other positions hold and however long they are: under one order of the
map and whatever was sent before, the same gauges in the same order and the
same panic or none; under two orders of the map, a panic for both or for
neither, and without panic the same gauges up to their order. -/
theorem field_selection_invariance (r1 r2 : List String) (h1 : 62 ≤ r1.length)
    (h2 : 62 ≤ r2.length) (hagree : ∀ i ∈ selectedPositions, field r1 i = field r2 i) :
    (∀ (order : List String) (sent : List MetricPoint),
      processRecord order r1 sent = processRecord order r2 sent) ∧
    (∀ o1 o2 : List String, o1.Perm fieldKeys → o2.Perm fieldKeys →
      (processRecord o1 r1 []).aborted = (processRecord o2 r2 []).aborted ∧
      ((processRecord o1 r1 []).panic = none →
        (processRecord o1 r1 []).gauges.Perm (processRecord o2 r2 []).gauges)) := by
  have hsame : ∀ (order : List String) (sent : List MetricPoint),
      processRecord order r1 sent = processRecord order r2 sent := by
    intro order sent
    rw [processRecord_ok order r1 sent h1, processRecord_ok order r2 sent h2,
      propertiesOf_congr r1 r2 hagree]
  refine ⟨hsame, fun o1 o2 hp1 hp2 => ?_⟩
  rw [← hsame o2 []]
  exact ⟨processRecord_aborted_perm o1 o2 r1 hp1 hp2,
    processRecord_gauges_perm o1 o2 r1 hp1 hp2⟩

theorem field_selection_invariance_witness :
    (∀ (order : List String) (sent : List MetricPoint),
      processRecord order scenarioRow sent =
        processRecord order (((scenarioRow.set 2 "junk").set 57 "x:y") ++ ["more", "columns"])
          sent) ∧
    (∀ o1 o2 : List String, o1.Perm fieldKeys → o2.Perm fieldKeys →
      (processRecord o1 scenarioRow []).aborted =
        (processRecord o2
          (((scenarioRow.set 2 "junk").set 57 "x:y") ++ ["more", "columns"]) []).aborted ∧
      ((processRecord o1 scenarioRow []).panic = none →
        (processRecord o1 scenarioRow []).gauges.Perm
          (processRecord o2
            (((scenarioRow.set 2 "junk").set 57 "x:y") ++ ["more", "columns"]) []).gauges)) :=
  field_selection_invariance scenarioRow
    (((scenarioRow.set 2 "junk").set 57 "x:y") ++ ["more", "columns"])
    (by decide) (by decide) (by decide)

/-- C1 fails as stated: the scenario row has 62 fields, each numeric field is
empty or a decimal integer, and the row gives sixteen gauges, not fourteen. -/
theorem scenario_row_gives_sixteen_gauges :
    scenarioRow.length = 62 ∧
    (∀ kp ∈ numericFields, field scenarioRow kp.2 = "" ∨
      (denotedInt (field scenarioRow kp.2)).isSome = true) ∧
    processRecord fieldKeys scenarioRow [] = ⟨scenarioGauges, none⟩ ∧
    (processRecord fieldKeys scenarioRow []).gauges.length = 16 ∧
    (processRecord fieldKeys scenarioRow []).gauges.length ≠ 14 :=
  ⟨by decide, scenarioRow_numeric, by decide, by decide, by decide⟩

/-- C1, amended: for every order of the map, a row of 62 fields or more in
which each numeric field is empty or a decimal integer in the range of `int`
is processed without panic and gives exactly sixteen gauges, one for each pair
(key, position) of `numericFields` and none for `pxname` or `svname`, with
name `replace(row[0], ':', '.') + "." + row[1] + "." + key` and for value the
integer that `row[position]` denotes, 0 when it is empty. -/
theorem well_formed_row_gives_sixteen_gauges (order record : List String)
    (hperm : order.Perm fieldKeys) (hlen : 62 ≤ record.length)
    (hnum : ∀ kp ∈ numericFields, field record kp.2 = "" ∨
      (denotedInt (field record kp.2)).isSome = true) :
    (processRecord order record []).panic = none ∧
    (processRecord order record []).gauges.Perm
      (numericFields.map (fun kp =>
        (replaceColon (field record 0) ++ "." ++ field record 1 ++ "." ++ kp.1,
          fieldValue (field record kp.2)))) ∧
    (processRecord order record []).gauges.length = 16 := by
  have hall : ∀ key ∈ order, isNumericKey key = true →
      ∃ v, Atoi (normalized ((propertiesOf record).get key)) = .ok v := by
    intro key hmem hn
    obtain ⟨i, hi⟩ := (perm_numeric_mem order hperm key).1 ⟨hmem, hn⟩
    exact ⟨_, loopValue_numeric record (key, i) hi (hnum _ hi)⟩
  have hperm2 : (processRecord order record []).gauges.Perm
      (numericFields.map (fun kp =>
        (replaceColon (field record 0) ++ "." ++ field record 1 ++ "." ++ kp.1,
          fieldValue (field record kp.2)))) := by
    rw [processRecord_ok order record [] hlen, rangeLoop_all_ok _ _ _ hall]
    simp only [List.nil_append]
    refine ((filter_numeric_perm order hperm).map _).trans ?_
    rw [List.map_map]
    refine List.Perm.of_eq (List.map_congr_left ?_)
    intro kp hkp
    simp only [Function.comp, loopName_propertiesOf, metricName, loopValue,
      loopValue_numeric record kp hkp (hnum kp hkp)]
  refine ⟨?_, hperm2, ?_⟩
  · rw [processRecord_ok order record [] hlen, rangeLoop_all_ok _ _ _ hall]
  · rw [hperm2.length_eq]
    rfl

theorem well_formed_row_gives_sixteen_gauges_witness :
    (processRecord fieldKeys.reverse scenarioRow []).panic = none ∧
    (processRecord fieldKeys.reverse scenarioRow []).gauges.Perm
      (numericFields.map (fun kp =>
        (replaceColon (field scenarioRow 0) ++ "." ++ field scenarioRow 1 ++ "." ++ kp.1,
          fieldValue (field scenarioRow kp.2)))) ∧
    (processRecord fieldKeys.reverse scenarioRow []).gauges.length = 16 :=
  well_formed_row_gives_sixteen_gauges fieldKeys.reverse scenarioRow (List.reverse_perm _)
    (by decide) scenarioRow_numeric

/-- C2 fails as stated: the row `colonRow` has 62 fields and an entity name
with the separator, `"web:8080"`, and its sub-entity name `"srv:1"` brings a
`':'` into every metric name, such as `"web.8080.srv:1.scur"`. -/
theorem sub_entity_colon_reaches_names :
    colonRow.length = 62 ∧ ':' ∈ (field colonRow 0).data ∧
    ("web.8080.srv:1.scur", 0) ∈ (processRecord fieldKeys colonRow []).gauges ∧
    ∀ p ∈ (processRecord fieldKeys colonRow []).gauges, ':' ∈ p.1.data := by
  decide

/-- C2, amended: for every order of the map and every row of 62 fields or
more, each metric name built for the row is the normalized entity name, a dot,
the sub-entity name as it is, a dot and a numeric key; the normalized entity
name has the length of the entity name, holds no `':'`, and has `'.'` exactly
where the entity name had `':'`, its other characters unchanged; and the whole
metric name is free of `':'` when the sub-entity name is. -/
theorem entity_name_normalized_in_names (order record : List String) (p : MetricPoint)
    (hperm : order.Perm fieldKeys) (hlen : 62 ≤ record.length)
    (hp : p ∈ (processRecord order record []).gauges) :
    (∃ kp ∈ numericFields,
      p.1 = replaceColon (field record 0) ++ "." ++ field record 1 ++ "." ++ kp.1) ∧
    (replaceColon (field record 0)).length = (field record 0).length ∧
    ':' ∉ (replaceColon (field record 0)).data ∧
    (∀ (i : Nat) (c : Char), (field record 0).data[i]? = some c →
      (replaceColon (field record 0)).data[i]? = some (if c = ':' then '.' else c)) ∧
    (':' ∉ (field record 1).data → ':' ∉ p.1.data) := by
  rw [processRecord_ok order record [] hlen] at hp
  rcases rangeLoop_mem _ _ _ _ hp with h | ⟨key, hmem, hn, v, _, hpv⟩
  · cases h
  obtain ⟨i, hi⟩ := (perm_numeric_mem order hperm key).1 ⟨hmem, hn⟩
  have hname : p.1 = replaceColon (field record 0) ++ "." ++ field record 1 ++ "." ++ key := by
    rw [hpv, loopName_propertiesOf]
    rfl
  refine ⟨⟨(key, i), hi, hname⟩, ?_, replaceColon_no_colon _, ?_, ?_⟩
  · exact replaceColon_length _
  · intro j c hc
    simp [replaceColon_data, List.getElem?_map, hc]
  · intro hsv
    have h1 := replaceColon_no_colon (field record 0)
    have h2 := numericFields_no_colon (key, i) hi
    rw [hname]
    simp only [String.data_append, List.mem_append, not_or]
    exact ⟨⟨⟨⟨h1, by decide⟩, hsv⟩, by decide⟩, h2⟩

theorem entity_name_normalized_in_names_witness :
    (∃ kp ∈ numericFields,
      ("web.8080.srv1.ereq", (5 : Int)).1 =
        replaceColon (field (scenarioRow.set 0 "web:8080") 0) ++ "." ++
          field (scenarioRow.set 0 "web:8080") 1 ++ "." ++ kp.1) ∧
    (replaceColon (field (scenarioRow.set 0 "web:8080") 0)).length =
      (field (scenarioRow.set 0 "web:8080") 0).length ∧
    ':' ∉ (replaceColon (field (scenarioRow.set 0 "web:8080") 0)).data ∧
    (∀ (i : Nat) (c : Char), (field (scenarioRow.set 0 "web:8080") 0).data[i]? = some c →
      (replaceColon (field (scenarioRow.set 0 "web:8080") 0)).data[i]? =
        some (if c = ':' then '.' else c)) ∧
    (':' ∉ (field (scenarioRow.set 0 "web:8080") 1).data →
      ':' ∉ ("web.8080.srv1.ereq", (5 : Int)).1.data) :=
  entity_name_normalized_in_names fieldKeys (scenarioRow.set 0 "web:8080")
    ("web.8080.srv1.ereq", 5) (List.Perm.refl _) (by decide) (by decide)

/-- C7 fails as stated: the statistics source answers with status 500 and a
body that holds a comment line and the scenario line; the cycle does not
panic, the body is parsed and its sixteen gauges are sent. -/
theorem status_500_is_parsed_and_sent :
    StatsEmitter sampleConfiguration
        (answering ⟨500, ["# pxname,svname,qcur,qmax,scur,smax", scenarioLine], none⟩) =
      ⟨scenarioGauges, none⟩ ∧
    StatsEmitter sampleConfiguration (answering ⟨500, [], none⟩) = ⟨[], none⟩ := by
  decide

/-- C7, amended: when the request was built, an error of the HTTP client (no
response at all) makes the cycle panic with that error before any gauge is
sent; the status code of a response is never read, so a response with any
status code whatever is parsed, and its gauges sent, exactly as the same
response with another status code. -/
theorem fetch_aborts_on_client_error_only (configuration : Configuration) (world : World)
    (hreq : world.NewRequest configuration.HAproxyUrl = true) :
    (∀ e : String,
        StatsEmitter configuration { world with Do := fun _ _ _ => .error e } =
          ⟨[], some (.transport e)⟩) ∧
    (∀ (resp : Response) (code : Nat),
        StatsEmitter configuration
            { world with Do := fun _ _ _ => .ok { resp with StatusCode := code } } =
          StatsEmitter configuration { world with Do := fun _ _ _ => .ok resp }) := by
  constructor
  · intro e
    simp only [StatsEmitter, hreq, Bool.not_true, Bool.false_eq_true, if_false]
  · intro resp code
    simp only [StatsEmitter, hreq, Bool.not_true, Bool.false_eq_true, if_false]

theorem fetch_aborts_on_client_error_only_witness :
    (∀ e : String,
        StatsEmitter sampleConfiguration
            { answering ⟨200, [scenarioLine], none⟩ with Do := fun _ _ _ => .error e } =
          ⟨[], some (.transport e)⟩) ∧
    (∀ (resp : Response) (code : Nat),
        StatsEmitter sampleConfiguration
            { answering ⟨200, [scenarioLine], none⟩ with
              Do := fun _ _ _ => .ok { resp with StatusCode := code } } =
          StatsEmitter sampleConfiguration
            { answering ⟨200, [scenarioLine], none⟩ with Do := fun _ _ _ => .ok resp }) :=
  fetch_aborts_on_client_error_only sampleConfiguration (answering ⟨200, [scenarioLine], none⟩)
    (by rfl)

/-- C8: when the fetch and the statsd connection succeed and every line of the
report begins with `'#'`, the reader gives `io.EOF` at its first call, without
any record, and the cycle ends without panic and without any gauge. -/
theorem comment_only_report_gives_nothing (configuration : Configuration) (world : World)
    (resp : Response)
    (hreq : world.NewRequest configuration.HAproxyUrl = true)
    (hdo : world.Do configuration.HAproxyUrl configuration.HAproxyUsername
      configuration.HAproxyPassword = .ok resp)
    (hstatsd : world.statsdNew configuration.StatsdAddr configuration.StatsdPrefix = .ok ())
    (hbody : resp.bodyError = none)
    (hcomment : ∀ line ∈ resp.Body, line.data.head? = some '#') :
    csvReads world.quoted resp.bodyError resp.Body 0 0 = [] ∧
    StatsEmitter configuration world = ⟨[], none⟩ := by
  have hreads : csvReads world.quoted resp.bodyError resp.Body 0 0 = [] := by
    rw [hbody]
    exact csvReads_comments _ _ _ hcomment
  refine ⟨hreads, ?_⟩
  simp only [StatsEmitter, hreq, hdo, hstatsd, hreads, readLoop, Bool.not_true,
    Bool.false_eq_true, if_false]

theorem comment_only_report_gives_nothing_witness :
    csvReads (answering commentReport).quoted commentReport.bodyError commentReport.Body 0 0
      = [] ∧
    StatsEmitter sampleConfiguration (answering commentReport) = ⟨[], none⟩ :=
  comment_only_report_gives_nothing sampleConfiguration (answering commentReport) commentReport
    (by rfl) (by rfl) (by rfl) (by rfl) (by decide)

/-- C9: let the maps be ranged over in any two families of orders.  For every
row, the processing panics under the one exactly when it panics under the
other, and when it does not panic the gauges sent are the same up to their
order; and the same holds of two cycles over the same report: the one panics
exactly when the other does, and when they do not the gauges sent are the same
up to their order. -/
theorem derivation_independent_of_order (o1 o2 : Nat → List String)
    (h1 : ∀ n, (o1 n).Perm fieldKeys) (h2 : ∀ n, (o2 n).Perm fieldKeys) :
    (∀ (record : List String) (n m : Nat),
      (processRecord (o1 n) record []).aborted = (processRecord (o2 m) record []).aborted ∧
      ((processRecord (o1 n) record []).panic = none →
        (processRecord (o1 n) record []).gauges.Perm
          (processRecord (o2 m) record []).gauges)) ∧
    (∀ (configuration : Configuration) (world : World),
      (StatsEmitter configuration { world with order := o1 }).aborted =
        (StatsEmitter configuration { world with order := o2 }).aborted ∧
      ((StatsEmitter configuration { world with order := o1 }).panic = none →
        (StatsEmitter configuration { world with order := o1 }).gauges.Perm
          (StatsEmitter configuration { world with order := o2 }).gauges)) := by
  constructor
  · intro record n m
    exact ⟨processRecord_aborted_perm _ _ record (h1 n) (h2 m),
      processRecord_gauges_perm _ _ record (h1 n) (h2 m)⟩
  · intro configuration world
    simp only [StatsEmitter]
    by_cases hreq : world.NewRequest configuration.HAproxyUrl = true
    · simp only [hreq, Bool.not_true, Bool.false_eq_true, if_false]
      cases world.Do configuration.HAproxyUrl configuration.HAproxyUsername
          configuration.HAproxyPassword with
      | error e => exact ⟨rfl, fun _ => List.Perm.refl _⟩
      | ok resp =>
        cases world.statsdNew configuration.StatsdAddr configuration.StatsdPrefix with
        | error e => exact ⟨rfl, fun _ => List.Perm.refl _⟩
        | ok u => exact readLoop_perm o1 o2 h1 h2 _ 1 1 [] [] (List.Perm.refl _)
    · simp [hreq]

theorem derivation_independent_of_order_witness :
    (∀ record : List String,
      (processRecord fieldKeys record []).aborted =
        (processRecord fieldKeys.reverse record []).aborted ∧
      ((processRecord fieldKeys record []).panic = none →
        (processRecord fieldKeys record []).gauges.Perm
          (processRecord fieldKeys.reverse record []).gauges)) ∧
    (∀ (configuration : Configuration) (world : World),
      (StatsEmitter configuration { world with order := fun _ => fieldKeys }).aborted =
        (StatsEmitter configuration { world with order := fun _ => fieldKeys.reverse }).aborted ∧
      ((StatsEmitter configuration { world with order := fun _ => fieldKeys }).panic = none →
        (StatsEmitter configuration { world with order := fun _ => fieldKeys }).gauges.Perm
          (StatsEmitter configuration
            { world with order := fun _ => fieldKeys.reverse }).gauges)) :=
  ⟨fun record =>
    (derivation_independent_of_order (fun _ => fieldKeys) (fun _ => fieldKeys.reverse)
      (fun _ => List.Perm.refl _) (fun _ => List.reverse_perm _)).1 record 0 0,
   (derivation_independent_of_order (fun _ => fieldKeys) (fun _ => fieldKeys.reverse)
      (fun _ => List.Perm.refl _) (fun _ => List.reverse_perm _)).2⟩

/-- C10: metric naming is not injective on (entity name, sub-entity name).  The
rows named (`web:8080`, `srv1`) and (`web.8080`, `srv1`), and the rows named
(`a.b`, `c`) and (`a`, `b.c`), have 62 fields and different pairs of names, and
for every order of the map the two rows of a pair send the same gauges under
the same names, sixteen of them in the order of the source. -/
theorem naming_not_injective :
    (namedRow "web:8080" "srv1").length = 62 ∧ (namedRow "web.8080" "srv1").length = 62 ∧
    (namedRow "a.b" "c").length = 62 ∧ (namedRow "a" "b.c").length = 62 ∧
    (field (namedRow "web:8080" "srv1") 0, field (namedRow "web:8080" "srv1") 1) ≠
      (field (namedRow "web.8080" "srv1") 0, field (namedRow "web.8080" "srv1") 1) ∧
    (field (namedRow "a.b" "c") 0, field (namedRow "a.b" "c") 1) ≠
      (field (namedRow "a" "b.c") 0, field (namedRow "a" "b.c") 1) ∧
    (∀ order : List String,
      processRecord order (namedRow "web:8080" "srv1") [] =
        processRecord order (namedRow "web.8080" "srv1") [] ∧
      processRecord order (namedRow "a.b" "c") [] =
        processRecord order (namedRow "a" "b.c") []) ∧
    ((processRecord fieldKeys (namedRow "web:8080" "srv1") []).gauges.map Prod.fst =
      numericFields.map (fun kp => "web.8080.srv1." ++ kp.1)) ∧
    ((processRecord fieldKeys (namedRow "a.b" "c") []).gauges.map Prod.fst =
      numericFields.map (fun kp => "a.b.c." ++ kp.1)) := by
  refine ⟨by decide, by decide, by decide, by decide, by decide, by decide, ?_, by decide,
    by decide⟩
  intro order
  rw [processRecord_ok order _ [] (by decide), processRecord_ok order _ [] (by decide),
    processRecord_ok order _ [] (by decide), processRecord_ok order _ [] (by decide)]
  constructor
  · apply rangeLoop_congr
    · intro key
      have hpre : replaceColon (field (namedRow "web:8080" "srv1") 0) ++ "." ++
            field (namedRow "web:8080" "srv1") 1 ++ "." =
          replaceColon (field (namedRow "web.8080" "srv1") 0) ++ "." ++
            field (namedRow "web.8080" "srv1") 1 ++ "." := by decide
      simp only [loopName_propertiesOf, metricName, hpre]
    · intro key hk
      exact propertiesOf_get_numeric _ _ (by decide) key hk
  · apply rangeLoop_congr
    · intro key
      have hpre : replaceColon (field (namedRow "a.b" "c") 0) ++ "." ++
            field (namedRow "a.b" "c") 1 ++ "." =
          replaceColon (field (namedRow "a" "b.c") 0) ++ "." ++
            field (namedRow "a" "b.c") 1 ++ "." := by decide
      simp only [loopName_propertiesOf, metricName, hpre]
    · intro key hk
      exact propertiesOf_get_numeric _ _ (by decide) key hk

end HaproxyStatsd
